import Mathlib

/-
Verification of the visual-element recognition layer of the autoDing
repository (module/button.py): the `Button` descriptor and the `ButtonGrid`
lattice generator.

Modelling conventions:
- Rectangles (`Area`) are 4-tuples of integers (upper-left x/y, bottom-right
  x/y), as in the Python source.
- A frame / image is a row-major list of rows of RGB pixels with integer
  channel values (`Img`), matching the 8-bit integer pixel buffers the source
  operates on.
- `module/utils.py` is imported by `module/button.py` but is not part of the
  repository's source tree; the helpers it provides (`area_offset`,
  `get_color`, `crop`) are modelled from the spec, as is the behaviour of the
  external collaborators `cv2.matchTemplate`/`cv2.minMaxLoc` (normalized
  cross-correlation, TM_CCOEFF_NORMED) and `PIL.Image.crop`.
- Normalized cross-correlation values are irrational (a quotient by a square
  root), so a score is represented exactly as a pair `Sc` of integers
  (num, den) standing for num / sqrt den, with the centered sums scaled by
  the pixel count to stay in ℤ; comparisons between scores and against a
  rational threshold are performed exactly on this representation, mirroring
  the real-number comparisons `similarity > threshold` and the max search of
  `cv2.minMaxLoc`.
- Asset I/O (`imageio.mimread`, `PIL.Image.open`) is abstracted as function
  parameters `imread`/`mimread`; `ensure_template` additionally returns the
  number of asset reads it performed (0 or 1).
- Names are passed explicitly to constructors; the source's fallbacks (the
  asset file's basename, or the caller's source line via `traceback`) are a
  reflection artifact the spec (section 9) excludes from the model.
- Python default arguments (`offset=30`, `threshold=0.85` on `match`) are
  modelled as ordinary explicit arguments.
- Methods not reached by any claim (`appear_on`, `match_appear_on`,
  `load_offset`, `clear_offset`, `Button.crop`, `gen_mask`, `save_mask`,
  `ButtonGrid.crop`, `ButtonGrid.move`) are not embedded.
-/

/-- A rectangle in frame pixel coordinates:
(upper_left_x, upper_left_y, bottom_right_x, bottom_right_y). -/
structure Area where
  x1 : ℤ
  y1 : ℤ
  x2 : ℤ
  y2 : ℤ
deriving DecidableEq, Repr

/-- Modelled from the spec: `offsetRectangle`/`area_offset` from the missing
`module/utils.py` — adds a 2D vector to both corners of a rectangle. -/
def area_offset (a : Area) (off : ℤ × ℤ) : Area :=
  ⟨a.x1 + off.1, a.y1 + off.2, a.x2 + off.1, a.y2 + off.2⟩

/-- Componentwise addition of a 4-vector offset and an area
(numpy `offset + self.area` in `Button.match`). -/
def quadAdd (o a : Area) : Area :=
  ⟨a.x1 + o.x1, a.y1 + o.y1, a.x2 + o.x2, a.y2 + o.y2⟩

/-- Addition of 2D integer points. -/
def addP (p q : ℤ × ℤ) : ℤ × ℤ := (p.1 + q.1, p.2 + q.2)

/-- An RGB pixel with integer channel values. -/
structure Pix where
  r : ℤ
  g : ℤ
  b : ℤ
deriving DecidableEq, Repr

/-- An image: a row-major list of rows of pixels. -/
abbrev Img := List (List Pix)

def zeroPix : Pix := ⟨0, 0, 0⟩

/-- Pixel access with zero padding outside the buffer. -/
def getPx (img : Img) (y x : ℤ) : Pix :=
  if y < 0 ∨ x < 0 then zeroPix
  else (img.getD y.toNat []).getD x.toNat zeroPix

/-- Modelled from the spec and PIL semantics: crop an image to a rectangle.
`PIL.Image.crop` pads regions outside the source image with zero pixels. -/
def cropFrame (img : Img) (a : Area) : Img :=
  (List.range (a.y2 - a.y1).toNat).map (fun dy =>
    (List.range (a.x2 - a.x1).toNat).map (fun dx =>
      getPx img (a.y1 + (dy : ℤ)) (a.x1 + (dx : ℤ))))

/-- Modelled from the spec: `sampleRegionColor`/`get_color` from the missing
`module/utils.py` — the per-channel mean color of the pixels of a rectangle
of the frame, as a `(r, g, b)` triple (here a 3-element list, since the
source also stores the empty tuple `()` in the `color` field). -/
def get_color (img : Img) (a : Area) : List ℚ :=
  let ps := (cropFrame img a).flatten
  let n : ℚ := (ps.length : ℚ)
  [((ps.map (fun p => p.r)).sum : ℚ) / n,
   ((ps.map (fun p => p.g)).sum : ℚ) / n,
   ((ps.map (fun p => p.b)).sum : ℚ) / n]

/-- Dot product of integer lists. -/
def dotZ (a b : List ℤ) : ℤ := (List.zipWith (· * ·) a b).sum

/-- Per-channel centered values of an image, scaled by the pixel count n to
stay integral: for channel value x, the centered value is n*x - (channel sum),
i.e. n times (x - mean). -/
def centBy (f : Pix → ℤ) (i : Img) : List ℤ :=
  let ps := i.flatten
  let n : ℤ := (ps.length : ℤ)
  let s := (ps.map f).sum
  ps.map (fun p => n * f p - s)

/-- Modelled from the spec: the numerator of the normalized cross-correlation
(TM_CCOEFF_NORMED) of a template and an equally sized patch, summed over the
three channels, scaled by the square of the pixel count. -/
def nccNum (t p : Img) : ℤ :=
  dotZ (centBy Pix.r t) (centBy Pix.r p) +
  dotZ (centBy Pix.g t) (centBy Pix.g p) +
  dotZ (centBy Pix.b t) (centBy Pix.b p)

/-- The (scaled) summed variance of an image: `nccNum` of the image with
itself, i.e. the sum of squares of its centered channel values. -/
def varSum (t : Img) : ℤ := nccNum t t

/-- An exact representation of a correlation score: `Sc.num / sqrt Sc.den`
(taken as 0 when the denominator vanishes, i.e. when template or patch is
constant). The common scale factor introduced by `centBy` cancels in every
comparison performed on scores. -/
structure Sc where
  num : ℤ
  den : ℤ
deriving DecidableEq, Repr

/-- Modelled from the spec: the normalized cross-correlation score of a
template and a patch, as an exact `Sc` pair. -/
def ncc (t p : Img) : Sc := ⟨nccNum t p, varSum t * varSum p⟩

/-- The sign of the real value represented by a score. -/
def scSgn (s : Sc) : ℤ :=
  if s.den ≤ 0 then 0
  else if 0 < s.num then 1
  else if s.num < 0 then -1
  else 0

/-- Exact strict comparison of two correlation scores
(`a.num / sqrt a.den < b.num / sqrt b.den`), by sign class and cross
multiplication of squares. -/
def scoreLT (a b : Sc) : Bool :=
  if scSgn a < scSgn b then true
  else if scSgn b < scSgn a then false
  else if scSgn a = 1 then decide (a.num ^ 2 * b.den < b.num ^ 2 * a.den)
  else if scSgn a = -1 then decide (b.num ^ 2 * a.den < a.num ^ 2 * b.den)
  else false

/-- Exact comparison of a correlation score against a rational threshold:
`s.num / sqrt s.den > thr` (the `similarity > threshold` test of
`Button.match`). -/
def simGT (s : Sc) (thr : ℚ) : Bool :=
  if s.den ≤ 0 then decide (thr.num < 0)
  else if 0 ≤ thr.num then
    decide (0 < s.num ∧ thr.num ^ 2 * s.den < s.num ^ 2 * (thr.den : ℤ) ^ 2)
  else
    decide (0 ≤ s.num ∨ s.num ^ 2 * (thr.den : ℤ) ^ 2 < thr.num ^ 2 * s.den)

/-- The patch of a window at location (x, y) with the template's shape. -/
def patchAt (win : Img) (x y tw th : ℕ) : Img :=
  ((win.drop y).take th).map (fun row => (row.drop x).take tw)

/-- Modelled from the spec: the correlation map `cv2.matchTemplate` computes —
one score per placement of the template inside the window, in row-major
order, tagged with the (x, y) placement `cv2.minMaxLoc` would report. -/
def scoresFor (t win : Img) : List ((ℤ × ℤ) × Sc) :=
  let th := t.length
  let tw := (t.headD []).length
  let H := win.length
  let W := (win.headD []).length
  (List.range (H + 1 - th)).flatMap (fun y =>
    (List.range (W + 1 - tw)).map (fun x =>
      ((Int.ofNat x, Int.ofNat y), ncc t (patchAt win x y tw th))))

/-- Modelled from the spec: the max half of `cv2.minMaxLoc` — the best score
and its location, keeping the first occurrence on ties. -/
def bestOf (l : List ((ℤ × ℤ) × Sc)) : (ℤ × ℤ) × Sc :=
  match l with
  | [] => ((0, 0), ⟨0, 0⟩)
  | h :: rest => rest.foldl (fun acc e => if scoreLT acc.2 e.2 then e else acc) h

/-- The in-memory template data held in `Button.image`: nothing yet, a single
still image, or the frame list of an animated (gif) template. -/
inductive TImage where
  | empty : TImage
  | still (i : Img) : TImage
  | anim (l : List Img) : TImage
deriving DecidableEq

/-- The `Button` state (module/button.py). `color` is a channel list so that
the source's empty tuple `()` (grid cells) is representable. -/
structure Button where
  area : Area
  color : List ℚ
  _button : Area
  _button_offset : Option Area
  _match_init : Bool
  file : Option String
  image : TImage
  is_gif : Bool
  name : String
deriving DecidableEq

/-- Whether a file path refers to a gif (animated) asset, from its
extension (`os.path.splitext(self.file)[1] == '.gif'` in
`Button.__init__`). -/
def isGifFile : Option String → Bool
  | some f => f.endsWith ".gif"
  | none => false

/-- The `Button.__init__` constructor path taking an explicit name:
fresh relocation and template-loading state. -/
def mkButton (area : Area) (color : List ℚ) (button : Area)
    (file : Option String) (name : String) : Button :=
  { area := area, color := color, _button := button, _button_offset := none,
    _match_init := false, file := file, image := .empty,
    is_gif := isGifFile file, name := name }

/-- The `Button.button` property: the relocated click area when a search
offset has been recorded, the static click area otherwise. -/
def Button.button (b : Button) : Area := b._button_offset.getD b._button

/-- `Button.__eq__`: equality by `str(self) == str(other)`, i.e. by name. -/
def Button.beq (a o : Button) : Bool := a.name == o.name

/-- `Button.__hash__`: `hash(self.name)`. -/
def Button.hashOf (b : Button) : UInt64 := b.name.hash

/-- `Button.load_color`: sample the mean color of `area` from the frame,
cache the cropped pixel snapshot, drop gif status, return the new color. -/
def Button.load_color (b : Button) (image : Img) : List ℚ × Button :=
  let c := get_color image b.area
  (c, { b with
        color := c,
        image := .still (cropFrame image b.area),
        is_gif := false })

/-- `Button.move`: a new button with both areas shifted by `vector`
(the click area taken from the `button` property, i.e. the active one),
optionally calibrated from a frame. -/
def Button.move (b : Button) (vector : ℤ × ℤ) (image : Option Img)
    (name : Option String) : Button :=
  let nm := name.getD b.name
  let nb := mkButton (area_offset b.area vector) b.color
    (area_offset b.button vector) b.file nm
  match image with
  | some im => (nb.load_color im).2
  | none => nb

/-- `Button.ensure_template`: load the asset (each gif frame, or the single
still image) cropped to `area` once per instance, guarded by `_match_init`.
The second component counts the asset reads performed by this call. -/
def Button.ensure_template (imread : String → Img) (mimread : String → List Img)
    (b : Button) : Button × ℕ :=
  if b._match_init then (b, 0)
  else if b.is_gif then
    ({ b with
       image := .anim ((mimread (b.file.getD "")).map
         (fun fr => cropFrame fr b.area)),
       _match_init := true }, 1)
  else
    ({ b with
       image := .still (cropFrame (imread (b.file.getD "")) b.area),
       _match_init := true }, 1)

/-- The still template held in `Button.image` (the non-gif branch of
`Button.match` reads `self.image` as a single array). -/
def templateOf : TImage → Img
  | .still i => i
  | _ => []

/-- The frame list held in `Button.image` (the gif branch of `Button.match`
iterates `self.image` as a list). -/
def framesOf : TImage → List Img
  | .anim l => l
  | _ => []

/-- The `offset` argument of `Button.match`: a scalar, a 2-tuple or a
4-tuple. -/
inductive OffsetArg where
  | scalar (n : ℤ)
  | pair (p : ℤ × ℤ)
  | quad (q : Area)
deriving DecidableEq

/-- Normalization of the `offset` argument in `Button.match`:
a scalar n becomes (-3, -n, 3, n), a 2-tuple (a, b) becomes (-a, -b, a, b),
a 4-tuple is used as is. -/
def normalizeOffset : OffsetArg → Area
  | .scalar n => ⟨-3, -n, 3, n⟩
  | .pair p => ⟨-p.1, -p.2, p.1, p.2⟩
  | .quad q => q

/-- The first two components (`offset[:2]`) of a normalized offset. -/
def offTL (q : Area) : ℤ × ℤ := (q.x1, q.y1)

/-- The cropped search window of `Button.match`:
`image.crop(offset + self.area)`. -/
def searchWindow (b : Button) (frame : Img) (off : OffsetArg) : Img :=
  cropFrame frame (quadAdd (normalizeOffset off) b.area)

/-- The per-frame loop of the gif branch of `Button.match`: for each frame,
record the best-match offset, and return true as soon as a frame's
similarity clears the threshold. -/
def matchFrames (ts : List Img) (win : Img) (off2 : ℤ × ℤ) (thr : ℚ)
    (b : Button) : Bool × Button :=
  match ts with
  | [] => (false, b)
  | t :: rest =>
    let best := bestOf (scoresFor t win)
    let b' := { b with
      _button_offset := some (area_offset b._button (addP off2 best.1)) }
    if simGT best.2 thr then (true, b') else matchFrames rest win off2 thr b'

/-- `Button.match`: template matching by normalized cross-correlation over
the search window, returning the boolean result and the updated button
state. -/
def Button.matchTemplate (imread : String → Img) (mimread : String → List Img)
    (b : Button) (frame : Img) (off : OffsetArg) (thr : ℚ) : Bool × Button :=
  let b1 := (b.ensure_template imread mimread).1
  let off4 := normalizeOffset off
  let win := searchWindow b1 frame off
  if b1.is_gif then matchFrames (framesOf b1.image) win (offTL off4) thr b1
  else
    let best := bestOf (scoresFor (templateOf b1.image) win)
    (simGT best.2 thr,
     { b1 with
       _button_offset :=
         some (area_offset b1._button (addP (offTL off4) best.1)) })

/-- The templates a `Button.match` call iterates over: the loaded gif frames
for an animated template, the single still template otherwise. -/
def runTemplates (b : Button) : List Img :=
  if b.is_gif then framesOf b.image else [templateOf b.image]

/-- The frame a completed `Button.match` gif loop leaves its mark from: the
first frame clearing the threshold if any, otherwise the last frame. -/
def decidingFrame (ts : List Img) (win : Img) (thr : ℚ) : Img :=
  (ts.find? (fun t => simGT (bestOf (scoresFor t win)).2 thr)).getD
    (ts.getLastD [])

/-- Rounding to nearest with ties to even of the fraction a / b (b positive,
so that `a / b` is floor division and `a % b` the nonnegative remainder), as
performed by `np.round` in `ButtonGrid.__getitem__`. -/
def np_round_div (a b : ℤ) : ℤ :=
  if 2 * (a % b) < b then a / b
  else if b < 2 * (a % b) then a / b + 1
  else if (a / b) % 2 = 0 then a / b else a / b + 1

/-- The `ButtonGrid` lattice (module/button.py). The origin is an integer
pixel point (spec data model), the per-cell delta a rational spacing vector
(the reason `np.round` appears in the source), the grid shape a pair of
cell counts. -/
structure ButtonGrid where
  origin : ℤ × ℤ
  delta : ℚ × ℚ
  button_shape : ℤ × ℤ
  grid_shape : ℕ × ℕ
  name : String
deriving DecidableEq

/-- `ButtonGrid.__getitem__`: the cell button at index (x, y), at
`np.round(item * delta + origin)` with a `button_shape` rectangle, empty
color, and a name encoding the grid name and the indices. The rounding of
`x * delta.1 + origin.1` is computed exactly on the fraction
`(x * delta.1.num + origin.1 * delta.1.den) / delta.1.den`. -/
def ButtonGrid.getItem (g : ButtonGrid) (item : ℤ × ℤ) : Button :=
  let bx := np_round_div (item.1 * g.delta.1.num + g.origin.1 * (g.delta.1.den : ℤ))
    (g.delta.1.den : ℤ)
  let by' := np_round_div (item.2 * g.delta.2.num + g.origin.2 * (g.delta.2.den : ℤ))
    (g.delta.2.den : ℤ)
  let area : Area := ⟨bx, by', bx + g.button_shape.1, by' + g.button_shape.2⟩
  mkButton area [] area none
    (g.name ++ "_" ++ toString item.1 ++ "_" ++ toString item.2)

/-- `ButtonGrid.generate`: (x, y, button) triples, rows outer, columns
inner. -/
def ButtonGrid.generate (g : ButtonGrid) : List (ℕ × ℕ × Button) :=
  (List.range g.grid_shape.2).flatMap (fun y =>
    (List.range g.grid_shape.1).map (fun x =>
      (x, y, g.getItem ((x : ℤ), (y : ℤ)))))

/-- `ButtonGrid.buttons`: the materialized cell list of `generate`. -/
def ButtonGrid.buttons (g : ButtonGrid) : List Button :=
  g.generate.map (fun e => e.2.2)

/-- The error of the spec's bounds-validating cell access. -/
inductive GridIndexError where
  | invalid : GridIndexError
deriving DecidableEq

/-- Modelled from the spec: `cellAt` with explicit bounds validation raising
`InvalidGridIndexError` on an index outside `gridShape` (spec section 7; the
source's `__getitem__` performs no such check). -/
def ButtonGrid.cellAtChecked (g : ButtonGrid) (item : ℤ × ℤ) :
    Except GridIndexError Button :=
  if 0 ≤ item.1 ∧ item.1 < (g.grid_shape.1 : ℤ) ∧
     0 ≤ item.2 ∧ item.2 < (g.grid_shape.2 : ℤ) then .ok (g.getItem item)
  else .error .invalid

def imread0 : String → Img := fun _ => []

def mimread0 : String → List Img := fun _ => []

/-- A pixel with the given red channel value and zero green/blue. -/
def pixR (v : ℤ) : Pix := ⟨v, 0, 0⟩

/-- An integer as a rational, in reduced raw form. -/
def qz (n : ℤ) : ℚ := Rat.mk' n 1 (by decide) (Nat.coprime_one_right _)

def qHalf : ℚ := Rat.mk' 1 2 (by decide) (Nat.coprime_one_left 2)

def tPaste : Img := [[pixR 0, pixR 3, pixR 0]]

def bStill : Button :=
  { area := ⟨0, 0, 3, 1⟩, color := [], _button := ⟨0, 0, 3, 1⟩,
    _button_offset := none, _match_init := true, file := none,
    image := .still tPaste, is_gif := false, name := "STILL" }

def frPaste : Img := [[pixR 0, pixR 3, pixR 0, pixR 0]]

def offQ : OffsetArg := .quad ⟨0, 0, 1, 0⟩

def tGif0 : Img := [[pixR 5, pixR 0, pixR 7]]

def tGif1 : Img := [[pixR 5, pixR 0, pixR 4]]

def bGif : Button :=
  { area := ⟨0, 0, 3, 1⟩, color := [], _button := ⟨0, 0, 3, 1⟩,
    _button_offset := none, _match_init := true, file := some "anim.gif",
    image := .anim [tGif0, tGif1], is_gif := true, name := "GIF" }

def frGif : Img := [[pixR 0, pixR 1, pixR 1, pixR 0]]

def bReloc : Button :=
  { area := ⟨0, 0, 10, 10⟩, color := [], _button := ⟨0, 0, 10, 10⟩,
    _button_offset := some ⟨5, 5, 15, 15⟩, _match_init := false, file := none,
    image := .empty, is_gif := false, name := "RELOC" }

def gridA : ButtonGrid :=
  { origin := (0, 0), delta := (qz 100, qz 50), button_shape := (80, 40),
    grid_shape := (3, 2), name := "GRID" }

def gridTie : ButtonGrid :=
  { origin := (1, 0), delta := (qHalf, qz 1), button_shape := (10, 10),
    grid_shape := (2, 1), name := "TIE" }

/-- A button agreeing with `bStill` in name only. -/
def bOther : Button :=
  { area := ⟨9, 9, 9, 9⟩, color := [qz 1], _button := ⟨1, 2, 3, 4⟩,
    _button_offset := some ⟨0, 0, 0, 0⟩, _match_init := false,
    file := some "x.gif", image := .anim [], is_gif := true, name := "STILL" }


theorem scoreLT_irrefl (s : Sc) : scoreLT s s = false := by
  unfold scoreLT
  rw [if_neg (lt_irrefl _), if_neg (lt_irrefl _)]
  by_cases e1 : scSgn s = 1
  · rw [if_pos e1, decide_eq_false_iff_not]
    exact lt_irrefl _
  · rw [if_neg e1]
    by_cases e2 : scSgn s = -1
    · rw [if_pos e2, decide_eq_false_iff_not]
      exact lt_irrefl _
    · rw [if_neg e2]

theorem scoreLT_asymm (a b : Sc) (h : scoreLT a b = true) : scoreLT b a = false := by
  unfold scoreLT at h ⊢
  rcases lt_trichotomy (scSgn a) (scSgn b) with h1 | h1 | h1
  · rw [if_neg (by omega : ¬ scSgn b < scSgn a), if_pos h1]
  · rw [if_neg (by omega : ¬ scSgn a < scSgn b),
      if_neg (by omega : ¬ scSgn b < scSgn a)] at h
    rw [if_neg (by omega : ¬ scSgn b < scSgn a),
      if_neg (by omega : ¬ scSgn a < scSgn b)]
    by_cases e1 : scSgn a = 1
    · rw [if_pos e1, decide_eq_true_eq] at h
      rw [if_pos (h1 ▸ e1), decide_eq_false_iff_not]
      exact lt_asymm h
    · by_cases e2 : scSgn a = -1
      · rw [if_neg e1, if_pos e2, decide_eq_true_eq] at h
        rw [if_neg (h1 ▸ e1), if_pos (h1 ▸ e2), decide_eq_false_iff_not]
        exact lt_asymm h
      · rw [if_neg e1, if_neg e2] at h
        exact absurd h (by simp)
  · rw [if_neg (by omega : ¬ scSgn a < scSgn b), if_pos h1] at h
    exact absurd h (by simp)

theorem foldl_best (tgt : (ℤ × ℤ) × Sc) (l : List ((ℤ × ℤ) × Sc)) :
    ∀ acc : (ℤ × ℤ) × Sc,
      (∀ x ∈ l, x = tgt ∨ scoreLT x.2 tgt.2 = true) →
      (acc = tgt ∨ (scoreLT acc.2 tgt.2 = true ∧ tgt ∈ l)) →
      l.foldl (fun a e => if scoreLT a.2 e.2 then e else a) acc = tgt := by
  induction l with
  | nil =>
    intro acc _ hacc
    rcases hacc with rfl | ⟨_, hmem⟩
    · rfl
    · exact absurd hmem (List.not_mem_nil _)
  | cons e l ih =>
    intro acc hall hacc
    have hall' : ∀ x ∈ l, x = tgt ∨ scoreLT x.2 tgt.2 = true :=
      fun x hx => hall x (List.mem_cons_of_mem _ hx)
    rw [List.foldl_cons]
    apply ih (if scoreLT acc.2 e.2 then e else acc) hall'
    rcases hall e (List.mem_cons_self _ _) with he | helt
    · rcases hacc with ha | ⟨hlt, _⟩
      · by_cases hcond : scoreLT acc.2 e.2 = true
        · rw [if_pos hcond]
          exact Or.inl he
        · rw [if_neg hcond]
          exact Or.inl ha
      · rw [if_pos (by rw [he]; exact hlt)]
        exact Or.inl he
    · rcases hacc with ha | ⟨hlt, hmem⟩
      · rw [if_neg (by rw [ha]; simp [scoreLT_asymm _ _ helt])]
        exact Or.inl ha
      · have htgt : tgt ∈ l := by
          rcases List.mem_cons.mp hmem with h1 | h1
          · rw [← h1] at helt
            rw [scoreLT_irrefl] at helt
            cases helt
          · exact h1
        by_cases hcond : scoreLT acc.2 e.2 = true
        · rw [if_pos hcond]
          exact Or.inr ⟨helt, htgt⟩
        · rw [if_neg hcond]
          exact Or.inr ⟨hlt, htgt⟩

theorem bestOf_eq (l : List ((ℤ × ℤ) × Sc)) (tgt : (ℤ × ℤ) × Sc)
    (hall : ∀ x ∈ l, x = tgt ∨ scoreLT x.2 tgt.2 = true) (hmem : tgt ∈ l) :
    bestOf l = tgt := by
  cases l with
  | nil => exact absurd hmem (List.not_mem_nil _)
  | cons e rest =>
    have hall' : ∀ x ∈ rest, x = tgt ∨ scoreLT x.2 tgt.2 = true :=
      fun x hx => hall x (List.mem_cons_of_mem _ hx)
    show rest.foldl (fun a e => if scoreLT a.2 e.2 then e else a) e = tgt
    rcases hall e (List.mem_cons_self _ _) with rfl | helt
    · exact foldl_best e rest e hall' (Or.inl rfl)
    · have htgt : tgt ∈ rest := by
        rcases List.mem_cons.mp hmem with h1 | h1
        · rw [← h1] at helt
          rw [scoreLT_irrefl] at helt
          cases helt
        · exact h1
      exact foldl_best tgt rest e hall' (Or.inr ⟨helt, htgt⟩)

theorem mem_scoresFor (t win : Img) (px py : ℕ)
    (hx : px + (t.headD []).length ≤ (win.headD []).length)
    (hy : py + t.length ≤ win.length) :
    ((Int.ofNat px, Int.ofNat py),
      ncc t (patchAt win px py (t.headD []).length t.length)) ∈ scoresFor t win := by
  unfold scoresFor
  simp only [List.mem_flatMap, List.mem_map, List.mem_range]
  exact ⟨py, by omega, px, by omega, rfl⟩

theorem ncc_self (t : Img) : ncc t t = ⟨varSum t, varSum t * varSum t⟩ := rfl

theorem simGT_sq (S : ℤ) (hS : 0 < S) (thr : ℚ) (h : thr < 1) :
    simGT ⟨S, S * S⟩ thr = true := by
  unfold simGT
  rw [if_neg (not_le.mpr (mul_pos hS hS))]
  by_cases hn : 0 ≤ thr.num
  · rw [if_pos hn, decide_eq_true_eq]
    refine ⟨hS, ?_⟩
    have hden : (0 : ℚ) < (thr.den : ℚ) := by exact_mod_cast thr.den_pos
    have h1 : (thr.num : ℚ) < (thr.den : ℚ) := by
      have h2 : (thr.num : ℚ) / (thr.den : ℚ) < 1 := by
        rw [Rat.num_div_den thr]
        exact h
      exact (div_lt_one hden).mp h2
    have h1' : thr.num < (thr.den : ℤ) := by exact_mod_cast h1
    have hsq : thr.num ^ 2 < ((thr.den : ℤ)) ^ 2 := by nlinarith
    have key := mul_lt_mul_of_pos_right hsq (mul_pos hS hS)
    have hr : S ^ 2 * ((thr.den : ℤ)) ^ 2 = ((thr.den : ℤ)) ^ 2 * (S * S) := by ring
    rw [hr]
    have hl : thr.num ^ 2 * (S * S) = thr.num ^ 2 * (S * S) := rfl
    exact key
  · rw [if_neg hn, decide_eq_true_eq]
    exact Or.inl hS.le

theorem ensure_init_true (imread : String → Img) (mimread : String → List Img)
    (b : Button) (h : b._match_init = true) :
    b.ensure_template imread mimread = (b, 0) := by
  unfold Button.ensure_template
  rw [if_pos h]

theorem ensure_sets_init (imread : String → Img) (mimread : String → List Img)
    (b : Button) : (b.ensure_template imread mimread).1._match_init = true := by
  unfold Button.ensure_template
  split
  · next h => exact h
  · split <;> rfl

theorem ensure_fields (imread : String → Img) (mimread : String → List Img)
    (b : Button) :
    (b.ensure_template imread mimread).1.area = b.area ∧
    (b.ensure_template imread mimread).1._button = b._button ∧
    (b.ensure_template imread mimread).1.is_gif = b.is_gif := by
  unfold Button.ensure_template
  split
  · exact ⟨rfl, rfl, rfl⟩
  · split <;> exact ⟨rfl, rfl, rfl⟩

theorem matchFrames_exists (win : Img) (off2 : ℤ × ℤ) (thr : ℚ) :
    ∀ (ts : List Img) (b : Button), ts ≠ [] →
      ∃ t ∈ ts,
        matchFrames ts win off2 thr b =
          (simGT (bestOf (scoresFor t win)).2 thr,
           { b with _button_offset := some (area_offset b._button
              (addP off2 (bestOf (scoresFor t win)).1)) }) := by
  intro ts
  induction ts with
  | nil => intro b h; exact absurd rfl h
  | cons t rest ih =>
    intro b _
    by_cases hc : simGT (bestOf (scoresFor t win)).2 thr = true
    · refine ⟨t, List.mem_cons_self _ _, ?_⟩
      simp only [matchFrames]
      rw [if_pos hc, hc]
    · have hcf : simGT (bestOf (scoresFor t win)).2 thr = false := by
        cases hval : simGT (bestOf (scoresFor t win)).2 thr
        · rfl
        · exact absurd hval hc
      by_cases hr : rest = []
      · subst hr
        refine ⟨t, List.mem_cons_self _ _, ?_⟩
        simp only [matchFrames]
        rw [if_neg hc, hcf]
      · obtain ⟨t', ht', heq⟩ := ih { b with _button_offset := some (area_offset b._button (addP off2 (bestOf (scoresFor t win)).1)) } hr
        refine ⟨t', List.mem_cons_of_mem _ ht', ?_⟩
        simp only [matchFrames]
        rw [if_neg hc, heq]

theorem getLastD_irrel {α : Type} (l : List α) (h : l ≠ []) (d d' : α) :
    l.getLastD d = l.getLastD d' := by
  cases l with
  | nil => exact absurd rfl h
  | cons a l => rw [List.getLastD_cons, List.getLastD_cons]

theorem decidingFrame_cons_of_neg (t : Img) (rest : List Img) (win : Img) (thr : ℚ)
    (h : simGT (bestOf (scoresFor t win)).2 thr = false) (hne : rest ≠ []) :
    decidingFrame (t :: rest) win thr = decidingFrame rest win thr := by
  unfold decidingFrame
  rw [List.find?_cons_of_neg _ (by simp [h]), List.getLastD_cons]
  cases hf : rest.find? (fun t => simGT (bestOf (scoresFor t win)).2 thr) with
  | some x => rfl
  | none =>
    simp only [Option.getD_none]
    exact getLastD_irrel rest hne t []

theorem matchFrames_eq (win : Img) (off2 : ℤ × ℤ) (thr : ℚ) :
    ∀ (ts : List Img) (b : Button), ts ≠ [] →
      matchFrames ts win off2 thr b =
        (ts.any (fun t => simGT (bestOf (scoresFor t win)).2 thr),
         { b with _button_offset := some (area_offset b._button
            (addP off2 (bestOf (scoresFor (decidingFrame ts win thr) win)).1)) }) := by
  intro ts
  induction ts with
  | nil => intro b h; exact absurd rfl h
  | cons t rest ih =>
    intro b _
    by_cases hc : simGT (bestOf (scoresFor t win)).2 thr = true
    · have hd : decidingFrame (t :: rest) win thr = t := by
        unfold decidingFrame
        rw [List.find?_cons_of_pos _ (by simp [hc])]
        rfl
      simp only [matchFrames]
      rw [if_pos hc, hd, List.any_cons, hc, Bool.true_or]
    · have hcf : simGT (bestOf (scoresFor t win)).2 thr = false := by
        cases hval : simGT (bestOf (scoresFor t win)).2 thr
        · rfl
        · exact absurd hval hc
      by_cases hr : rest = []
      · subst hr
        have hd : decidingFrame [t] win thr = t := by
          unfold decidingFrame
          rw [List.find?_cons_of_neg _ (by simp [hcf])]
          rfl
        simp only [matchFrames]
        rw [if_neg hc, hd, List.any_cons, hcf, Bool.false_or, List.any_nil]
      · have hd := decidingFrame_cons_of_neg t rest win thr hcf hr
        simp only [matchFrames]
        rw [if_neg hc, ih { b with _button_offset := some (area_offset b._button (addP off2 (bestOf (scoresFor t win)).1)) } hr, List.any_cons, hcf, Bool.false_or, hd]

theorem flatMap_row_get {β : Type} (w : ℕ) (row : ℕ → List β)
    (hw : ∀ y, (row y).length = w) :
    ∀ (ys : List ℕ) (i x y : ℕ), ys[i]? = some y → x < w →
      (ys.flatMap row)[i * w + x]? = (row y)[x]? := by
  intro ys
  induction ys with
  | nil =>
    intro i x y h _
    simp at h
  | cons a l ih =>
    intro i x y h hx
    cases i with
    | zero =>
      simp only [List.getElem?_cons_zero, Option.some.injEq] at h
      subst h
      rw [List.flatMap_cons, Nat.zero_mul, Nat.zero_add,
        List.getElem?_append_left (by rw [hw]; exact hx)]
    | succ i =>
      simp only [List.getElem?_cons_succ] at h
      rw [List.flatMap_cons, List.getElem?_append_right (by rw [hw, Nat.succ_mul]; omega)]
      have harith : (i + 1) * w + x - (row a).length = i * w + x := by
        rw [hw, Nat.succ_mul]
        omega
      rw [harith]
      exact ih i x y h hx

theorem np_round_div_add_mul (a b c : ℤ) (hb : b ≠ 0) (ht : 2 * (a % b) ≠ b) :
    np_round_div (a + c * b) b = np_round_div a b + c := by
  unfold np_round_div
  rw [Int.add_mul_ediv_right a c hb, Int.add_mul_emod_self]
  rcases lt_trichotomy (2 * (a % b)) b with h1 | h1 | h1
  · rw [if_pos h1, if_pos h1]
  · exact absurd h1 ht
  · rw [if_neg (not_lt.mpr h1.le), if_neg (not_lt.mpr h1.le), if_pos h1, if_pos h1]
    ring

theorem buttons_eq (g : ButtonGrid) :
    g.buttons = (List.range g.grid_shape.2).flatMap (fun y =>
      (List.range g.grid_shape.1).map (fun x =>
        g.getItem (Int.ofNat x, Int.ofNat y))) := by
  unfold ButtonGrid.buttons ButtonGrid.generate
  simp only [List.map_flatMap, List.map_map]
  rfl

theorem area_offset_neg (a : Area) (v : ℤ × ℤ) :
    area_offset (area_offset a v) (-v.1, -v.2) = a := by
  cases a
  simp only [area_offset, Area.mk.injEq]
  omega

/-- Claim C1: every `Button.match` call on a button whose loaded template data
is nonempty (a still template, or an animated one with at least one frame)
updates `_button_offset`, whether or not the call returns true: afterwards it
holds the static click area offset by the best-found match location of the
correlation map of the deciding template frame, while the boolean result is
exactly the `similarity > threshold` comparison on that same correlation
map. -/
theorem c1_match_always_updates_offset (imread : String → Img)
    (mimread : String → List Img) (b : Button) (frame : Img) (off : OffsetArg)
    (thr : ℚ)
    (hne : runTemplates (b.ensure_template imread mimread).1 ≠ []) :
    ∃ t ∈ runTemplates (b.ensure_template imread mimread).1,
      (b.matchTemplate imread mimread frame off thr).2._button_offset =
        some (area_offset b._button (addP (offTL (normalizeOffset off))
          (bestOf (scoresFor t
            (searchWindow (b.ensure_template imread mimread).1 frame off))).1)) ∧
      (b.matchTemplate imread mimread frame off thr).1 =
        simGT (bestOf (scoresFor t
          (searchWindow (b.ensure_template imread mimread).1 frame off))).2 thr := by
  obtain ⟨harea, hbtn, hgifp⟩ := ensure_fields imread mimread b
  simp only [Button.matchTemplate]
  by_cases hg : (b.ensure_template imread mimread).1.is_gif = true
  · simp only [runTemplates, if_pos hg] at hne ⊢
    obtain ⟨t, ht, heq⟩ := matchFrames_exists
      (searchWindow (b.ensure_template imread mimread).1 frame off)
      (offTL (normalizeOffset off)) thr
      (framesOf (b.ensure_template imread mimread).1.image)
      (b.ensure_template imread mimread).1 hne
    refine ⟨t, ht, ?_, ?_⟩
    · simp only [heq, hbtn]
    · simp only [heq]
  · simp only [runTemplates, if_neg hg]
    refine ⟨templateOf (b.ensure_template imread mimread).1.image,
      List.mem_cons_self _ _, ?_, ?_⟩
    · rw [hbtn]
    · rfl

/-- Witness for C1 at a concrete still-template button and frame. -/
theorem c1_witness :
    ∃ t ∈ runTemplates (bStill.ensure_template imread0 mimread0).1,
      (bStill.matchTemplate imread0 mimread0 frPaste offQ qHalf).2._button_offset =
        some (area_offset bStill._button (addP (offTL (normalizeOffset offQ))
          (bestOf (scoresFor t
            (searchWindow (bStill.ensure_template imread0 mimread0).1 frPaste offQ))).1)) ∧
      (bStill.matchTemplate imread0 mimread0 frPaste offQ qHalf).1 =
        simGT (bestOf (scoresFor t
          (searchWindow (bStill.ensure_template imread0 mimread0).1 frPaste offQ))).2 qHalf :=
  c1_match_always_updates_offset imread0 mimread0 bStill frPaste offQ qHalf (by decide)

/-- Claim C2 (amended): for a loaded animated template, `Button.match`
iterates the frames, returns true as soon as a frame's best similarity
clears the threshold (early exit) and false after exhausting all frames;
`_button_offset` afterwards holds the best location of the deciding frame —
the first clearing frame on success, the last frame on failure — not
necessarily the globally best-scoring frame. -/
theorem c2_gif_early_exit (imread : String → Img) (mimread : String → List Img)
    (b : Button) (frame : Img) (off : OffsetArg) (thr : ℚ) (l : List Img)
    (hmi : b._match_init = true) (hgif : b.is_gif = true)
    (him : b.image = .anim l) (hne : l ≠ []) :
    (b.matchTemplate imread mimread frame off thr).1 =
      l.any (fun t => simGT (bestOf (scoresFor t (searchWindow b frame off))).2 thr) ∧
    (b.matchTemplate imread mimread frame off thr).2._button_offset =
      some (area_offset b._button (addP (offTL (normalizeOffset off))
        (bestOf (scoresFor (decidingFrame l (searchWindow b frame off) thr)
          (searchWindow b frame off))).1)) := by
  have he := ensure_init_true imread mimread b hmi
  simp only [Button.matchTemplate, he]
  rw [if_pos hgif, him]
  simp only [framesOf]
  rw [matchFrames_eq (searchWindow b frame off) (offTL (normalizeOffset off)) thr l b hne]
  exact ⟨rfl, rfl⟩

/-- Witness for C2's amended statement at the concrete two-frame gif
button. -/
theorem c2_witness :
    (bGif.matchTemplate imread0 mimread0 frGif offQ 0).1 =
      [tGif0, tGif1].any (fun t =>
        simGT (bestOf (scoresFor t (searchWindow bGif frGif offQ))).2 0) ∧
    (bGif.matchTemplate imread0 mimread0 frGif offQ 0).2._button_offset =
      some (area_offset bGif._button (addP (offTL (normalizeOffset offQ))
        (bestOf (scoresFor (decidingFrame [tGif0, tGif1] (searchWindow bGif frGif offQ) 0)
          (searchWindow bGif frGif offQ))).1)) :=
  c2_gif_early_exit imread0 mimread0 bGif frGif offQ 0 [tGif0, tGif1] rfl rfl rfl
    (by decide)

/-- Counterexample to C2 as stated: with two frames neither of which clears
threshold 0, the call returns false and records frame 1's best location
(1, 0), while the globally best-scoring frame is frame 0 whose best location
is (0, 0) — the globally best frame/location is not what `clickOffset`
keeps. -/
theorem c2_counterexample :
    (bGif.matchTemplate imread0 mimread0 frGif offQ 0).1 = false ∧
    (bGif.matchTemplate imread0 mimread0 frGif offQ 0).2._button_offset =
      some ⟨1, 0, 4, 1⟩ ∧
    scoreLT (bestOf (scoresFor tGif1 (searchWindow bGif frGif offQ))).2
      (bestOf (scoresFor tGif0 (searchWindow bGif frGif offQ))).2 = true ∧
    (bestOf (scoresFor tGif0 (searchWindow bGif frGif offQ))).1 = (0, 0) ∧
    (some (⟨1, 0, 4, 1⟩ : Area) ≠
      some (area_offset bGif._button (addP (offTL (normalizeOffset offQ))
        (bestOf (scoresFor tGif0 (searchWindow bGif frGif offQ))).1))) := by
  decide

/-- Claim C3 (amended): a still-template `Button.match` on a frame whose
search window contains the exact reference image pasted at offset (px, py),
with a nonconstant template whose paste location is the unique best-scoring
placement, returns true for every threshold < 1.0 and records exactly that
offset in `_button_offset` (at threshold = 1.0 the strict comparison
`similarity > threshold` fails, since the exact paste scores exactly 1). -/
theorem c3_exact_paste_match (imread : String → Img) (mimread : String → List Img)
    (b : Button) (frame : Img) (off : OffsetArg) (thr : ℚ) (T : Img) (px py : ℕ)
    (hmi : b._match_init = true) (hgif : b.is_gif = false)
    (him : b.image = .still T)
    (hx : px + (T.headD []).length ≤ ((searchWindow b frame off).headD []).length)
    (hy : py + T.length ≤ (searchWindow b frame off).length)
    (hpaste : patchAt (searchWindow b frame off) px py (T.headD []).length T.length = T)
    (hvar : 0 < varSum T)
    (huniq : ∀ e ∈ scoresFor T (searchWindow b frame off),
      e ≠ ((Int.ofNat px, Int.ofNat py), ncc T T) → scoreLT e.2 (ncc T T) = true)
    (hthr : thr < 1) :
    b.matchTemplate imread mimread frame off thr =
      (true, { b with _button_offset := some (area_offset b._button
        (addP (offTL (normalizeOffset off)) (Int.ofNat px, Int.ofNat py))) }) := by
  have he := ensure_init_true imread mimread b hmi
  have hmem := mem_scoresFor T (searchWindow b frame off) px py hx hy
  rw [hpaste] at hmem
  have hbest : bestOf (scoresFor T (searchWindow b frame off)) =
      ((Int.ofNat px, Int.ofNat py), ncc T T) := by
    apply bestOf_eq
    · intro e hme
      by_cases hcase : e = ((Int.ofNat px, Int.ofNat py), ncc T T)
      · exact Or.inl hcase
      · exact Or.inr (huniq e hme hcase)
    · exact hmem
  have hsim : simGT (ncc T T) thr = true := by
    rw [ncc_self]
    exact simGT_sq (varSum T) hvar thr hthr
  simp only [Button.matchTemplate, he]
  simp only [hgif, Bool.false_eq_true, if_false]
  rw [him]
  simp only [templateOf]
  simp only [hbest, hsim]

/-- Witness for C3's amended statement: the exact 1x3 reference pasted at
window offset (0, 0), threshold 1/2. -/
theorem c3_witness :
    bStill.matchTemplate imread0 mimread0 frPaste offQ qHalf =
      (true, { bStill with _button_offset := some (area_offset bStill._button
        (addP (offTL (normalizeOffset offQ)) (Int.ofNat 0, Int.ofNat 0))) }) :=
  c3_exact_paste_match imread0 mimread0 bStill frPaste offQ qHalf tPaste 0 0
    rfl rfl rfl (by decide) (by decide) (by decide) (by decide) (by decide)
    (by decide)

/-- Counterexample to C3 as stated: at threshold exactly 1.0 (which the claim
includes via "threshold ≤ 1.0"), the same exact-paste configuration returns
false, because the source's comparison `similarity > threshold` is strict and
the exact paste scores exactly 1.0. -/
theorem c3_counterexample :
    (bStill.matchTemplate imread0 mimread0 frPaste offQ 1).1 = false ∧
    patchAt (searchWindow bStill frPaste offQ) 0 0 3 1 = tPaste ∧
    0 < varSum tPaste ∧
    ((1 : ℚ) ≤ 1) := by
  decide

/-- Claim C4 (amended): a grid cell's area has its upper-left corner at
`np.round(item * delta + origin)` — the rounding applied to the summed
coordinate — and its lower-right corner at that corner plus `button_shape`;
this equals the claim's `origin + round(delta * (x, y))` whenever the product
`delta * (x, y)` does not land exactly on a half-integer tie (the origin
being an integer pixel point). -/
theorem c4_cell_geometry (g : ButtonGrid) (x y : ℤ)
    (hx : 0 ≤ x ∧ x < (g.grid_shape.1 : ℤ))
    (hy : 0 ≤ y ∧ y < (g.grid_shape.2 : ℤ)) :
    (g.getItem (x, y)).area =
      ⟨np_round_div (x * g.delta.1.num + g.origin.1 * (g.delta.1.den : ℤ)) (g.delta.1.den : ℤ),
       np_round_div (y * g.delta.2.num + g.origin.2 * (g.delta.2.den : ℤ)) (g.delta.2.den : ℤ),
       np_round_div (x * g.delta.1.num + g.origin.1 * (g.delta.1.den : ℤ)) (g.delta.1.den : ℤ) +
         g.button_shape.1,
       np_round_div (y * g.delta.2.num + g.origin.2 * (g.delta.2.den : ℤ)) (g.delta.2.den : ℤ) +
         g.button_shape.2⟩ ∧
    (2 * ((x * g.delta.1.num) % (g.delta.1.den : ℤ)) ≠ (g.delta.1.den : ℤ) →
      (g.getItem (x, y)).area.x1 =
        g.origin.1 + np_round_div (x * g.delta.1.num) (g.delta.1.den : ℤ)) ∧
    (2 * ((y * g.delta.2.num) % (g.delta.2.den : ℤ)) ≠ (g.delta.2.den : ℤ) →
      (g.getItem (x, y)).area.y1 =
        g.origin.2 + np_round_div (y * g.delta.2.num) (g.delta.2.den : ℤ)) := by
  have hden1 : (g.delta.1.den : ℤ) ≠ 0 := Int.natCast_ne_zero.mpr g.delta.1.den_nz
  have hden2 : (g.delta.2.den : ℤ) ≠ 0 := Int.natCast_ne_zero.mpr g.delta.2.den_nz
  refine ⟨rfl, fun ht => ?_, fun ht => ?_⟩
  · show np_round_div (x * g.delta.1.num + g.origin.1 * (g.delta.1.den : ℤ))
      (g.delta.1.den : ℤ) = g.origin.1 + np_round_div (x * g.delta.1.num) (g.delta.1.den : ℤ)
    rw [np_round_div_add_mul _ _ _ hden1 ht]
    omega
  · show np_round_div (y * g.delta.2.num + g.origin.2 * (g.delta.2.den : ℤ))
      (g.delta.2.den : ℤ) = g.origin.2 + np_round_div (y * g.delta.2.num) (g.delta.2.den : ℤ)
    rw [np_round_div_add_mul _ _ _ hden2 ht]
    omega

/-- Witness for C4: the spec's concrete grid origin=(0,0), delta=(100,50),
cellShape=(80,40), gridShape=(3,2) has cellAt(2,1).searchArea =
(200, 50, 280, 90), and the claim's `origin + round(delta * (x, y))` formula
agrees there. -/
theorem c4_witness :
    (gridA.getItem (2, 1)).area = ⟨200, 50, 280, 90⟩ ∧
    (gridA.getItem (2, 1)).area.x1 =
      gridA.origin.1 + np_round_div (2 * gridA.delta.1.num) (gridA.delta.1.den : ℤ) ∧
    (gridA.getItem (2, 1)).area.y1 =
      gridA.origin.2 + np_round_div (1 * gridA.delta.2.num) (gridA.delta.2.den : ℤ) := by
  have h := c4_cell_geometry gridA 2 1 (by decide) (by decide)
  exact ⟨h.1.trans (by decide), h.2.1 (by decide), h.2.2 (by decide)⟩

/-- Counterexample to C4 as stated: for the in-range index (1, 0) of a grid
with origin (1, 0) and delta (1/2, 1), the code rounds the summed coordinate,
`np.round(1 * 1/2 + 1) = 2`, while the claim's formula
`origin + round(delta * (x, y))` gives `1 + np.round(1/2) = 1`. -/
theorem c4_counterexample :
    (0 ≤ (1 : ℤ) ∧ (1 : ℤ) < (gridTie.grid_shape.1 : ℤ) ∧
      0 ≤ (0 : ℤ) ∧ (0 : ℤ) < (gridTie.grid_shape.2 : ℤ)) ∧
    (gridTie.getItem (1, 0)).area.x1 = 2 ∧
    gridTie.origin.1 + np_round_div (1 * gridTie.delta.1.num) (gridTie.delta.1.den : ℤ) = 1 ∧
    (2 : ℤ) ≠ 1 := by
  decide

/-- Claim C5: the materialized cell list has length gridShape.x * gridShape.y
and is in row-major order (rows outer, columns inner): position y*w + x holds
the cell at column x, row y, and in particular position 1 is the cell at
(column 1, row 0) for grids with at least two columns (and a first row). -/
theorem c5_buttons_row_major (g : ButtonGrid) :
    g.buttons.length = g.grid_shape.1 * g.grid_shape.2 ∧
    (∀ x y : ℕ, x < g.grid_shape.1 → y < g.grid_shape.2 →
      g.buttons[y * g.grid_shape.1 + x]? =
        some (g.getItem (Int.ofNat x, Int.ofNat y))) ∧
    (2 ≤ g.grid_shape.1 → 1 ≤ g.grid_shape.2 →
      g.buttons[1]? = some (g.getItem (Int.ofNat 1, Int.ofNat 0))) := by
  have hrow : ∀ y : ℕ, ((List.range g.grid_shape.1).map
      (fun x => g.getItem (Int.ofNat x, Int.ofNat y))).length = g.grid_shape.1 := by
    intro y
    simp
  have hidx : ∀ x y : ℕ, x < g.grid_shape.1 → y < g.grid_shape.2 →
      g.buttons[y * g.grid_shape.1 + x]? =
        some (g.getItem (Int.ofNat x, Int.ofNat y)) := by
    intro x y hx hy
    rw [buttons_eq]
    rw [flatMap_row_get g.grid_shape.1 _ hrow (List.range g.grid_shape.2) y x y
      (List.getElem?_range hy) hx]
    rw [List.getElem?_map, List.getElem?_range hx]
    rfl
  refine ⟨?_, hidx, fun h2 h1 => ?_⟩
  · rw [buttons_eq, List.length_flatMap]
    have hconst : (List.length ∘ fun y => List.map
        (fun x => g.getItem (Int.ofNat x, Int.ofNat y)) (List.range g.grid_shape.1)) =
        fun _ => g.grid_shape.1 := by
      funext y
      simp
    rw [hconst, List.map_const', List.length_range, List.sum_replicate, smul_eq_mul]
    exact Nat.mul_comm _ _
  · have h := hidx 1 0 (by omega) (by omega)
    simpa using h

/-- Witness for C5 at the concrete 3x2 grid. -/
theorem c5_witness :
    gridA.buttons.length = 6 ∧
    gridA.buttons[1]? = some (gridA.getItem (Int.ofNat 1, Int.ofNat 0)) := by
  have h := c5_buttons_row_major gridA
  exact ⟨h.1.trans (by decide), h.2.2 (by decide) (by decide)⟩

/-- Claim C6 (amended): the source's `ButtonGrid.__getitem__` performs no
bounds check: for an index outside `gridShape` it still returns a Button at
the extrapolated lattice position, while the spec's bounds-validating
`cellAt` (modelled separately) rejects such an index with
`InvalidGridIndexError`. -/
theorem c6_unchecked_out_of_range (g : ButtonGrid) (x y : ℤ)
    (h : ¬ (0 ≤ x ∧ x < (g.grid_shape.1 : ℤ) ∧ 0 ≤ y ∧ y < (g.grid_shape.2 : ℤ))) :
    g.cellAtChecked (x, y) = .error .invalid ∧
    (g.getItem (x, y)).area =
      ⟨np_round_div (x * g.delta.1.num + g.origin.1 * (g.delta.1.den : ℤ)) (g.delta.1.den : ℤ),
       np_round_div (y * g.delta.2.num + g.origin.2 * (g.delta.2.den : ℤ)) (g.delta.2.den : ℤ),
       np_round_div (x * g.delta.1.num + g.origin.1 * (g.delta.1.den : ℤ)) (g.delta.1.den : ℤ) +
         g.button_shape.1,
       np_round_div (y * g.delta.2.num + g.origin.2 * (g.delta.2.den : ℤ)) (g.delta.2.den : ℤ) +
         g.button_shape.2⟩ := by
  constructor
  · simp only [ButtonGrid.cellAtChecked]
    rw [if_neg h]
  · rfl

/-- Witness for C6's amended statement at the out-of-range index (3, 0) of
the 3x2 grid. -/
theorem c6_witness :
    gridA.cellAtChecked (3, 0) = .error .invalid ∧
    (gridA.getItem (3, 0)).area =
      ⟨np_round_div (3 * gridA.delta.1.num + gridA.origin.1 * (gridA.delta.1.den : ℤ))
         (gridA.delta.1.den : ℤ),
       np_round_div (0 * gridA.delta.2.num + gridA.origin.2 * (gridA.delta.2.den : ℤ))
         (gridA.delta.2.den : ℤ),
       np_round_div (3 * gridA.delta.1.num + gridA.origin.1 * (gridA.delta.1.den : ℤ))
         (gridA.delta.1.den : ℤ) + gridA.button_shape.1,
       np_round_div (0 * gridA.delta.2.num + gridA.origin.2 * (gridA.delta.2.den : ℤ))
         (gridA.delta.2.den : ℤ) + gridA.button_shape.2⟩ :=
  c6_unchecked_out_of_range gridA 3 0 (by decide)

/-- Counterexample to C6 as stated: at the out-of-range index (3, 0) of the
3x2 grid, the source's `__getitem__` does not raise — it returns an element
with the extrapolated geometry (300, 0, 380, 40); only the spec-modelled
bounds-validating access yields `InvalidGridIndexError`. -/
theorem c6_counterexample :
    (gridA.getItem (3, 0)).area = ⟨300, 0, 380, 40⟩ ∧
    (gridA.getItem (3, 0)).name = "GRID_3_0" ∧
    gridA.cellAtChecked (3, 0) = .error .invalid :=
  ⟨by decide, by decide, rfl⟩

/-- Claim C7 (amended): `move(V)` then `move(-V)` restores the search area,
and restores the static click area to the original's *active* click area
(the `button` property); when the original has no relocation offset these
coincide, so the round trip restores `clickArea` exactly for non-relocated
buttons. -/
theorem c7_move_roundtrip (b : Button) (v : ℤ × ℤ) :
    ((b.move v none none).move (-v.1, -v.2) none none).area = b.area ∧
    ((b.move v none none).move (-v.1, -v.2) none none)._button = b.button ∧
    (b._button_offset = none →
      ((b.move v none none).move (-v.1, -v.2) none none)._button = b._button) := by
  refine ⟨?_, ?_, fun h => ?_⟩
  · show area_offset (area_offset b.area v) (-v.1, -v.2) = b.area
    exact area_offset_neg b.area v
  · show area_offset (area_offset b.button v) (-v.1, -v.2) = b.button
    exact area_offset_neg b.button v
  · show area_offset (area_offset b.button v) (-v.1, -v.2) = b._button
    rw [area_offset_neg]
    unfold Button.button
    rw [h]
    rfl

/-- Witness for C7's amended statement at a concrete non-relocated button. -/
theorem c7_witness :
    ((bStill.move (2, 3) none none).move (-2, -3) none none).area = bStill.area ∧
    ((bStill.move (2, 3) none none).move (-2, -3) none none)._button = bStill._button := by
  have h := c7_move_roundtrip bStill (2, 3)
  exact ⟨h.1, h.2.2 rfl⟩

/-- Counterexample to C7 as stated: for a relocated button (clickOffset set),
the round trip `move(V).move(-V)` returns the search area but bakes the
relocated click area into the new static `clickArea`, which therefore does
not equal the original `clickArea`. -/
theorem c7_counterexample :
    ((bReloc.move (1, 1) none none).move (-1, -1) none none).area = bReloc.area ∧
    ((bReloc.move (1, 1) none none).move (-1, -1) none none)._button = ⟨5, 5, 15, 15⟩ ∧
    bReloc._button = ⟨0, 0, 10, 10⟩ ∧
    ((bReloc.move (1, 1) none none).move (-1, -1) none none)._button ≠ bReloc._button := by
  decide

/-- Claim C8: `ensure_template` is idempotent — a call performs at most one
asset read, and a second call performs no asset I/O and leaves the loaded
state (including the decoded template) unchanged. -/
theorem c8_ensure_idempotent (imread : String → Img) (mimread : String → List Img)
    (b : Button) :
    (b.ensure_template imread mimread).1.ensure_template imread mimread =
      ((b.ensure_template imread mimread).1, 0) ∧
    (b.ensure_template imread mimread).2 ≤ 1 := by
  constructor
  · exact ensure_init_true imread mimread _ (ensure_sets_init imread mimread b)
  · unfold Button.ensure_template
    split
    · exact Nat.zero_le 1
    · split
      · exact Nat.le_refl 1
      · exact Nat.le_refl 1

/-- Claim C9: `load_color` overwrites the color with the mean color sampled
at `area`, caches the cropped pixel snapshot, resets the animated flag, and
returns the new color; the search area, static click area, click offset and
name are unchanged. -/
theorem c9_load_color_effect (b : Button) (frame : Img) :
    (b.load_color frame).1 = get_color frame b.area ∧
    (b.load_color frame).2.color = get_color frame b.area ∧
    (b.load_color frame).2.image = .still (cropFrame frame b.area) ∧
    (b.load_color frame).2.is_gif = false ∧
    (b.load_color frame).2.area = b.area ∧
    (b.load_color frame).2._button = b._button ∧
    (b.load_color frame).2._button_offset = b._button_offset ∧
    (b.load_color frame).2.name = b.name :=
  ⟨rfl, rfl, rfl, rfl, rfl, rfl, rfl, rfl⟩

/-- Claim C10: button equality is name equality (via `str(self)`), equal
names give equal hashes, and no other field takes part. -/
theorem c10_eq_iff_name (a o : Button) :
    (a.beq o = true ↔ a.name = o.name) ∧
    (a.name = o.name → a.hashOf = o.hashOf) := by
  constructor
  · simp [Button.beq]
  · intro h
    unfold Button.hashOf
    rw [h]

/-- Witness for C10: two buttons differing in every field except the name are
equal and hash alike. -/
theorem c10_witness : bStill.beq bOther = true ∧ bStill.hashOf = bOther.hashOf := by
  have h := c10_eq_iff_name bStill bOther
  exact ⟨h.1.mpr rfl, h.2 rfl⟩
